import Mathlib

/-!
Verification development for the CodeBuddy coding-assistant core.

The definitions below are a shallow embedding of the reasoning-to-action
layer of the repository:

* `parseLLMResponse`, `parseToolParams`, `normalizeParameterNames` and
  `inferTool` embed `CodingAgent._parse_llm_response`,
  `_parse_tool_params`, `_normalize_parameter_names` and
  `_infer_tool_from_natural_language` from
  `src/my_coding_agent/core/agent.py`;
* `assessRisk`, `requiresApproval`, `requestApproval` and
  `executeToolPlan` embed `SafetyApprovalSystem` from
  `src/my_coding_agent/safety/approval.py` and
  `CodingAgent._execute_tool_plan`;
* `runIterations` / `executeTask` embed `ReActAgent.execute_task` from
  `src/agent/react_agent.py`.

Python regular expressions are embedded as explicit character-list
scanners implementing the exact leftmost / greedy / lazy semantics of the
concrete patterns used by the source (noted at each definition).  Strings
are modelled through their underlying `List Char`; the embedding is
faithful on ASCII input, which is the alphabet the source's patterns
(`\w`, `[a-zA-Z]` and so on) are used with.  File-system queries made by
the risk rules (`os.path.exists`, `os.path.getsize`, `os.listdir`) are
modelled by an explicit oracle structure `FS`; `None` results of the
`Option`-valued fields model the `except:` branches of the source.
-/

set_option maxRecDepth 4000

namespace CodeBuddy

/-! ## Character classes and Python string primitives -/

/-- The apostrophe character, written via its code point. -/
def squote : Char := Char.ofNat 39

/-- Python `\w` on ASCII input: letters, digits and underscore. -/
def isWordChar (c : Char) : Bool := c.isAlphanum || c == '_'

/-- Python `str.strip()` whitespace set: space, \t, \n, \r, \x0b, \x0c. -/
def pyIsSpace (c : Char) : Bool :=
  c == ' ' || c == '\t' || c == '\n' || c == '\r' ||
  c == Char.ofNat 11 || c == Char.ofNat 12

/-- A quote character: `"` or `'` (the class `["\']`). -/
def isQuoteChar (c : Char) : Bool := c == '"' || c == squote

/-- Python `str.strip()` on a character list. -/
def stripList (l : List Char) : List Char :=
  ((l.dropWhile pyIsSpace).reverse.dropWhile pyIsSpace).reverse

/-- Python `str.strip()` on strings. -/
def pyStrip (s : String) : String := String.mk (stripList s.data)

/-- Python `str.strip('\'"')`: remove quote characters from both ends. -/
def stripQuotesEnds (l : List Char) : List Char :=
  ((l.dropWhile isQuoteChar).reverse.dropWhile isQuoteChar).reverse

/-- Python `str.lower()` (ASCII case mapping). -/
def pyLower (s : String) : String := String.mk (s.data.map Char.toLower)

/-- Substring test on character lists (Python `needle in haystack`). -/
def containsSeq : List Char → List Char → Bool
  | [], pat => pat.isEmpty
  | c :: t, pat => pat.isPrefixOf (c :: t) || containsSeq t pat

/-- Python `sub in s` for strings. -/
def strContains (s sub : String) : Bool := containsSeq s.data sub.data

/-- Python `str.split()` (split on whitespace runs, dropping empties),
accumulator-based. -/
def splitWsAux : List Char → List Char → List (List Char)
  | [], cur => if cur.isEmpty then [] else [cur.reverse]
  | c :: rest, cur =>
    if pyIsSpace c then
      if cur.isEmpty then splitWsAux rest [] else cur.reverse :: splitWsAux rest []
    else splitWsAux rest (c :: cur)

/-- Python `str.split()` with no separator argument. -/
def splitWs (l : List Char) : List (List Char) := splitWsAux l []

/-- Python `str.split(',')`: split at every comma, keeping empty pieces. -/
def splitOnComma : List Char → List (List Char)
  | [] => [[]]
  | ',' :: rest => [] :: splitOnComma rest
  | c :: rest =>
    match splitOnComma rest with
    | h :: t => (c :: h) :: t
    | [] => [[c]]

/-- `os.path.basename` on a POSIX path: the part after the last `/`. -/
def basename (s : String) : String :=
  String.mk ((s.data.reverse.takeWhile (fun c => !(c == '/'))).reverse)

/-! ## Plan data model and parameter dictionaries

`Plan` is the tagged union produced by `_parse_llm_response`
(`{"type": "tool_execution" | "conversation" | "error", ...}`). -/

inductive Plan where
  | toolExecution (tool : String) (params : List (String × String)) (rawResponse : String)
  | conversation (response : String)
  | error (message : String)
deriving DecidableEq, Repr

/-- Whether a plan is the error variant. -/
def planIsError : Plan → Bool
  | .error _ => true
  | _ => false

/-- The tool name of a tool-execution plan. -/
def Plan.toolNameOf : Plan → Option String
  | .toolExecution t _ _ => some t
  | _ => none

/-- Python dict assignment `d[k] = v`: update in place if the key exists
(keeping its position, as Python dicts do), otherwise append. -/
def dictSet : List (String × String) → String → String → List (String × String)
  | [], k, v => [(k, v)]
  | (k0, v0) :: rest, k, v =>
    if k0 = k then (k0, v) :: rest else (k0, v0) :: dictSet rest k v

/-- Python `k in d`. -/
def dictContains (m : List (String × String)) (k : String) : Bool :=
  m.any (fun p => p.1 == k)

/-- Python `d.get(k)` / `d[k]`. -/
def dictLookup : List (String × String) → String → Option String
  | [], _ => none
  | (k0, v0) :: rest, k => if k0 = k then some v0 else dictLookup rest k

/-- Python `d.get(k, default)`. -/
def dictGetD (m : List (String × String)) (k d : String) : String :=
  (dictLookup m k).getD d

/-! ## Strategy 1 scanner: `re.search(r'(\w+)\((.*)\)$', s, re.DOTALL)`

A match exists at the leftmost position whose maximal `\w+` run is
immediately followed by `(`, provided the whole string ends in `)` (the
`$` anchor; inputs are stripped first, so `$` means end of string).
Group 2 is everything between that `(` and the final `)`. -/

/-- Find the leftmost maximal word run immediately followed by `(`;
return the run and the characters after the `(`. -/
def findToolCall : List Char → Option (List Char × List Char)
  | [] => none
  | c :: rest =>
    match (c :: rest).takeWhile isWordChar, (c :: rest).dropWhile isWordChar with
    | run@(_ :: _), '(' :: tail => some (run, tail)
    | _, _ => findToolCall rest

/-- Strategy 1 of `_parse_llm_response`. -/
def strategy1 (l : List Char) : Option (List Char × List Char) :=
  if l.getLast? = some ')' then
    (findToolCall l).map (fun p => (p.1, p.2.dropLast))
  else none

/-! ## Strategy 2 scanner:
`re.findall(r'(\w+)\(([^)]*(?:\([^)]*\)[^)]*)*)\)', s, re.DOTALL)`

Because all quantifiers are greedy and `[^)]*` stops exactly at the first
`)`, the first successful backtracking path always takes zero iterations
of the inner group, so each match is a word run, `(`, the characters up
to the first following `)`, and that `)`; `re.findall` scans leftmost and
non-overlapping.  The scanner is written with explicit fuel (one unit per
character position, so `fuel = l.length` never runs out). -/

def findToolCallsAux : Nat → List Char → List (List Char × List Char)
  | 0, _ => []
  | _, [] => []
  | fuel + 1, c :: rest =>
    match (c :: rest).takeWhile isWordChar, (c :: rest).dropWhile isWordChar with
    | run@(_ :: _), '(' :: tail =>
      let args := tail.takeWhile (fun x => !(x == ')'))
      match tail.drop args.length with
      | _ :: after => (run, args) :: findToolCallsAux fuel after
      | [] => findToolCallsAux fuel rest
    | _, _ => findToolCallsAux fuel rest

/-- Strategy 2 of `_parse_llm_response`: first syntactic match whose
name is a registered tool. -/
def strategy2 (tools : List String) (l : List Char) : Option (String × String) :=
  (((findToolCallsAux l.length l).map
      (fun p => (String.mk p.1, String.mk p.2))).find?
    (fun p => tools.contains p.1))

/-! ## Parameter decoder: `_parse_tool_params`

Pass 1 pattern: `(\w+)="""(.*?)"""` with `re.DOTALL` (lazy: the value
ends at the first following `"""`).
Pass 2 pattern: `(\w+)=(["\'])(.*?)\2` without `re.DOTALL` (the value
ends at the first following quote equal to the opener and may not
contain a newline, which `.` cannot match).
After each extracted pair the source removes the consumed span with
`re.sub`; the removal patterns are embedded separately below because
they differ from the extraction patterns (`{key}=["\'][^"\']*["\']`
closes at the first quote character of either kind). -/

/-- Split at the first `"""`: the characters before it and after it. -/
def splitAtTriple : List Char → Option (List Char × List Char)
  | '"' :: '"' :: '"' :: rest => some ([], rest)
  | c :: rest => (splitAtTriple rest).map (fun p => (c :: p.1, p.2))
  | [] => none

def findTripleAux : Nat → List Char → List (List Char × List Char)
  | 0, _ => []
  | _, [] => []
  | fuel + 1, c :: rest =>
    match (c :: rest).takeWhile isWordChar, (c :: rest).dropWhile isWordChar with
    | run@(_ :: _), '=' :: '"' :: '"' :: '"' :: tail =>
      (match splitAtTriple tail with
       | some pr => (run, pr.1) :: findTripleAux fuel pr.2
       | none => findTripleAux fuel rest)
    | _, _ => findTripleAux fuel rest

/-- Lazy scan for the closing quote `q`; fails on a newline (the lazy
`(.*?)` cannot cross `\n` without `re.DOTALL`). -/
def scanValue (q : Char) : List Char → Option (List Char × List Char)
  | [] => none
  | c :: rest =>
    if c == q then some ([], rest)
    else if c == '\n' then none
    else (scanValue q rest).map (fun p => (c :: p.1, p.2))

def findQuotedAux : Nat → List Char → List (List Char × List Char)
  | 0, _ => []
  | _, [] => []
  | fuel + 1, c :: rest =>
    match (c :: rest).takeWhile isWordChar, (c :: rest).dropWhile isWordChar with
    | run@(_ :: _), '=' :: q :: tail =>
      if isQuoteChar q then
        match scanValue q tail with
        | some pr => (run, pr.1) :: findQuotedAux fuel pr.2
        | none => findQuotedAux fuel rest
      else findQuotedAux fuel rest
    | _, _ => findQuotedAux fuel rest

/-- One attempted match of `re.sub(rf'{key}=""".*?"""', '', s)` at the
current position: returns the remainder after the consumed span. -/
def matchTripleAt (key l : List Char) : Option (List Char) :=
  if key.isPrefixOf l then
    match l.drop key.length with
    | '=' :: '"' :: '"' :: '"' :: tail => (splitAtTriple tail).map (fun p => p.2)
    | _ => none
  else none

def subTripleAux : Nat → List Char → List Char → List Char
  | 0, _, l => l
  | _, _, [] => []
  | fuel + 1, key, c :: rest =>
    match matchTripleAt key (c :: rest) with
    | some after => subTripleAux fuel key after
    | none => c :: subTripleAux fuel key rest

/-- `re.sub(rf'{key}=""".*?"""', '', s, flags=re.DOTALL)`. -/
def subTripleAll (key l : List Char) : List Char := subTripleAux l.length key l

/-- One attempted match of `re.sub(rf'{key}=["\'][^"\']*["\']', '', s)`
at the current position. -/
def matchQuotedAt (key l : List Char) : Option (List Char) :=
  if key.isPrefixOf l then
    match l.drop key.length with
    | '=' :: q :: tail =>
      if isQuoteChar q then
        let inner := tail.takeWhile (fun c => !(isQuoteChar c))
        match tail.drop inner.length with
        | c2 :: after => if isQuoteChar c2 then some after else none
        | [] => none
      else none
    | _ => none
  else none

def subQuotedAux : Nat → List Char → List Char → List Char
  | 0, _, l => l
  | _, _, [] => []
  | fuel + 1, key, c :: rest =>
    match matchQuotedAt key (c :: rest) with
    | some after => subQuotedAux fuel key after
    | none => c :: subQuotedAux fuel key rest

/-- `re.sub(rf'{key}=["\'][^"\']*["\']', '', s)`. -/
def subQuotedAll (key l : List Char) : List Char := subQuotedAux l.length key l

/-- A bare-value character for `(\w+)=([^,\s)]+)`. -/
def isBareValueChar (c : Char) : Bool := !(c == ',' || pyIsSpace c || c == ')')

def findUnquotedAux : Nat → List Char → List (List Char × List Char)
  | 0, _ => []
  | _, [] => []
  | fuel + 1, c :: rest =>
    match (c :: rest).takeWhile isWordChar, (c :: rest).dropWhile isWordChar with
    | run@(_ :: _), '=' :: tail =>
      let value := tail.takeWhile isBareValueChar
      match value with
      | [] => findUnquotedAux fuel rest
      | _ => (run, value) :: findUnquotedAux fuel (tail.drop value.length)
    | _, _ => findUnquotedAux fuel rest

/-- `_normalize_parameter_names`'s `name_mappings` table. -/
def nameMapping (k : String) : String :=
  if k = "folder_path" then "folderpath"
  else if k = "directory_path" then "folderpath"
  else if k = "dir_path" then "folderpath"
  else if k = "folder_name" then "folderpath"
  else if k = "directory_name" then "folderpath"
  else if k = "path" then "folderpath"
  else if k = "file_path" then "filepath"
  else if k = "filename" then "filepath"
  else if k = "file_name" then "filepath"
  else if k = "cmd" then "command"
  else if k = "shell_command" then "command"
  else if k = "file_content" then "content"
  else if k = "code" then "content"
  else if k = "text" then "content"
  else k

/-- `_normalize_parameter_names`: rebuild the dict, mapping each key
through the synonym table; iteration follows insertion order, so a later
entry overwrites an earlier one that normalizes to the same name. -/
def normalizeParameterNames (params : List (String × String)) : List (String × String) :=
  params.foldl (fun acc p => dictSet acc (nameMapping p.1) p.2) []

/-- `_parse_tool_params` before the final normalization step:
triple-quoted pass, quoted pass, unquoted pass, positional fallback.
The state threads the params dict together with the progressively
`re.sub`-reduced parameter string. -/
def parseToolParamsRaw (s : String) : List (String × String) :=
  let l0 := s.data
  let triples := findTripleAux l0.length l0
  let step1 := triples.foldl
    (fun (acc : List (String × String) × List Char) kv =>
      (dictSet acc.1 (String.mk kv.1) (String.mk (stripList kv.2)),
       subTripleAll kv.1 acc.2))
    ([], l0)
  let quoted := findQuotedAux step1.2.length step1.2
  let step2 := quoted.foldl
    (fun (acc : List (String × String) × List Char) kv =>
      (dictSet acc.1 (String.mk kv.1) (String.mk kv.2),
       subQuotedAll kv.1 acc.2))
    step1
  let unquoted := findUnquotedAux step2.2.length step2.2
  let params3 := unquoted.foldl
    (fun ps kv =>
      if dictContains ps (String.mk kv.1) then ps
      else dictSet ps (String.mk kv.1) (String.mk (stripList kv.2)))
    step2.1
  if params3.isEmpty && !(stripList step2.2).isEmpty then
    let parts := ((splitOnComma step2.2).map stripList).filter (fun p => !p.isEmpty)
    match parts with
    | [] => params3
    | first :: restParts =>
      let fp := stripQuotesEnds first
      let ps :=
        if fp.contains '.' || fp.contains '/' || fp.contains '\\' then
          dictSet params3 ("filepath") (String.mk fp)
        else
          dictSet params3 ("folderpath") (String.mk fp)
      match restParts with
      | second :: _ => dictSet ps ("content") (String.mk (stripQuotesEnds second))
      | [] => ps
  else params3

/-- `_parse_tool_params`: an empty (stripped) argument string returns the
empty dict untouched; otherwise the extraction passes run and the synonym
normalization is applied last. -/
def parseToolParams (s : String) : List (String × String) :=
  if (stripList s.data).isEmpty then []
  else normalizeParameterNames (parseToolParamsRaw s)

/-! ## Strategy 3: `_infer_tool_from_natural_language`

The filename patterns are `([a-zA-Z_][a-zA-Z0-9_./]*\.[a-zA-Z]+)` and
`([a-zA-Z_][a-zA-Z0-9_./]*\.py)` under `re.search`: leftmost start
position first, then (greedy `*`) the last `.`-followed-by-extension
inside the maximal character-class run. -/

def isFilenameStart (c : Char) : Bool := c.isAlpha || c == '_'

def isFilenameChar (c : Char) : Bool :=
  c.isAlpha || c.isDigit || c == '_' || c == '.' || c == '/'

/-- Largest `k` below the bound with `rest[k] = '.'` and `rest[k+1]` a
letter (the greedy backtracking target of `[a-zA-Z0-9_./]*\.[a-zA-Z]+`). -/
def bestDotIdx (rest : List Char) : Nat → Option Nat
  | 0 => none
  | m + 1 =>
    match rest.get? m, rest.get? (m + 1) with
    | some c1, some c2 =>
      if c1 == '.' && c2.isAlpha then some m else bestDotIdx rest m
    | _, _ => bestDotIdx rest m

/-- `re.search(r'([a-zA-Z_][a-zA-Z0-9_./]*\.[a-zA-Z]+)', s)`. -/
def searchFilename : List Char → Option (List Char)
  | [] => none
  | c :: rest =>
    if isFilenameStart c then
      match bestDotIdx rest (rest.takeWhile isFilenameChar).length with
      | some k =>
        some (c :: (rest.take (k + 1) ++ (rest.drop (k + 1)).takeWhile Char.isAlpha))
      | none => searchFilename rest
    else searchFilename rest

/-- Largest `k` below the bound with `rest[k..k+2] = ".py"`. -/
def bestPyIdx (rest : List Char) : Nat → Option Nat
  | 0 => none
  | m + 1 =>
    match rest.get? m, rest.get? (m + 1), rest.get? (m + 2) with
    | some c1, some c2, some c3 =>
      if c1 == '.' && c2 == 'p' && c3 == 'y' then some m else bestPyIdx rest m
    | _, _, _ => bestPyIdx rest m

/-- `re.search(r'([a-zA-Z_][a-zA-Z0-9_./]*\.py)', s)`. -/
def searchPyFilename : List Char → Option (List Char)
  | [] => none
  | c :: rest =>
    if isFilenameStart c then
      match bestPyIdx rest (rest.takeWhile isFilenameChar).length with
      | some k => some (c :: rest.take (k + 3))
      | none => searchPyFilename rest
    else searchPyFilename rest

/-- The `'''...'''` calculator template of the file-creation heuristic. -/
def calcTemplate : String :=
  "def add(a, b):\n    return a + b\n\ndef subtract(a, b):\n    return a - b\n\nprint(\"Simple calculator functions created\")"

/-- The recognized extensions of the creation/reading heuristics. -/
def inferExts : List String := [".py", ".txt", ".js", ".md"]

/-- File-creation heuristic (checked first in the source). -/
def fileCreationInfer (response userInput userLower : String) : Option Plan :=
  if (["create", "make", "write"].any (fun w => strContains userLower w)) &&
     (inferExts.any (fun e => strContains userLower e)) then
    (searchFilename userInput.data).map (fun fn =>
      let filename := String.mk fn
      let content :=
        if strContains userLower ("hello") then "print(\"Hello, World!\")"
        else if strContains userLower ("calculator") then calcTemplate
        else ("# ") ++ filename ++ (" - Created by CodingAgent\nprint(\"File created successfully!\")")
      Plan.toolExecution ("write_file")
        ([(("filepath"), filename), (("content"), content)]) response)
  else none

/-- The `for i, word in enumerate(words)` scan: the word after the first
`folder`/`directory` (when one follows it). -/
def findFolderName : List String → Option String
  | w :: next :: rest =>
    if pyLower w = "folder" ∨ pyLower w = "directory" then some next
    else findFolderName (next :: rest)
  | _ => none

/-- Folder-creation heuristic (checked second in the source). -/
def folderCreationInfer (response userInput userLower : String) : Option Plan :=
  if strContains userLower ("create") &&
     (strContains userLower ("folder") || strContains userLower ("directory")) then
    let words := (splitWs userInput.data).map String.mk
    let folderName := (findFolderName words).getD ("new_folder")
    some (Plan.toolExecution ("create_folder")
      ([(("folderpath"), folderName)]) response)
  else none

/-- File-reading heuristic. -/
def fileReadingInfer (response userInput userLower : String) : Option Plan :=
  if (["show", "read", "display"].any (fun w => strContains userLower w)) &&
     (inferExts.any (fun e => strContains userLower e)) then
    (searchFilename userInput.data).map (fun fn =>
      Plan.toolExecution ("read_file")
        ([(("filepath"), String.mk fn)]) response)
  else none

/-- Python-execution heuristic. -/
def pythonRunInfer (response userInput userLower : String) : Option Plan :=
  if strContains userLower ("run") && strContains userLower (".py") then
    (searchPyFilename userInput.data).map (fun fn =>
      Plan.toolExecution ("run_python")
        ([(("filepath"), String.mk fn)]) response)
  else none

/-- List-files heuristic. -/
def listFilesInfer (response userInput userLower : String) : Option Plan :=
  if strContains userLower ("list") &&
     (strContains userLower ("file") || strContains userLower ("directory")) then
    some (Plan.toolExecution ("list_files")
      ([(("directory"), ("."))]) response)
  else none

/-- `_infer_tool_from_natural_language`: the five heuristics in source
order, the first that matches winning (falling through when a heuristic's
condition holds but its filename search fails, as the nested `if`s do). -/
def inferTool (response userInput : String) : Option Plan :=
  let userLower := pyLower userInput
  match fileCreationInfer response userInput userLower with
  | some p => some p
  | none =>
    match folderCreationInfer response userInput userLower with
    | some p => some p
    | none =>
      match fileReadingInfer response userInput userLower with
      | some p => some p
      | none =>
        match pythonRunInfer response userInput userLower with
        | some p => some p
        | none => listFilesInfer response userInput userLower

/-! ## `_parse_llm_response`: the four ordered strategies -/

/-- `_parse_llm_response(response, user_input)`.  The response is
stripped once at the top; strategy 1 returns a tool-execution plan
without consulting the registry, strategy 2 accepts only registered
names, strategy 3 infers from the original user input, strategy 4 falls
back to a conversation plan carrying the stripped response. -/
def parseLLMResponse (tools : List String) (response userInput : String) : Plan :=
  let r := pyStrip response
  match strategy1 r.data with
  | some pr =>
    Plan.toolExecution (String.mk pr.1) (parseToolParams (String.mk pr.2)) r
  | none =>
    match strategy2 tools r.data with
    | some pr => Plan.toolExecution pr.1 (parseToolParams pr.2) r
    | none =>
      match inferTool r userInput with
      | some p => p
      | none => Plan.conversation r

/-! ## Safety approval system (`safety/approval.py`) -/

/-- The five risk levels of `RiskLevel`. -/
inductive RiskLevel where
  | safe
  | low
  | medium
  | high
  | critical
deriving DecidableEq, Repr

/-- File-system oracle for the `os.path` / `os.listdir` queries of the
risk rules; a `none` in the `Option`-valued fields models the `except:`
branches of the source. -/
structure FS where
  pathExists : String → Bool
  getSize : String → Option Nat
  listdirCount : String → Option Nat

/-- `_assess_file_deletion_risk`'s `critical_patterns` list. -/
def criticalFilePatterns : List String :=
  ["main.py", "requirements.txt", ".env", "config",
   "database", ".git", "package.json", "Cargo.toml"]

/-- `_assess_file_deletion_risk`.  Both size branches below 1MB return
`LOW`, as does the fall-through after the `try`. -/
def assessFileDeletionRisk (fs : FS) (filepath : String) : RiskLevel :=
  if !(fs.pathExists filepath) then .safe
  else
    let filename := pyLower (basename filepath)
    if criticalFilePatterns.any (fun p => strContains filename p) then .high
    else
      match fs.getSize filepath with
      | some size =>
        if size > 1024 * 1024 then .medium
        else if size > 10 * 1024 then .low
        else .low
      | none => .low

/-- `_assess_folder_deletion_risk`'s `critical_dirs` list. -/
def criticalDirs : List String :=
  [".git", "node_modules", "__pycache__", ".venv", "venv",
   "src", "lib", "bin", "core", "system"]

/-- `_assess_folder_deletion_risk`.  The `item_count > 0` branch and the
final fall-through both return `LOW`. -/
def assessFolderDeletionRisk (fs : FS) (folderpath : String) : RiskLevel :=
  if !(fs.pathExists folderpath) then .safe
  else
    let dirname := pyLower (basename folderpath)
    let folderpathLower := pyLower folderpath
    if criticalDirs.any
        (fun c => strContains dirname c || strContains folderpathLower c) then .high
    else
      match fs.listdirCount folderpath with
      | some n =>
        if n > 50 then .high
        else if n > 10 then .medium
        else .low
      | none => .low

/-- `_assess_file_write_risk` (the `content` argument is unused). -/
def assessFileWriteRisk (fs : FS) (filepath : String) : RiskLevel :=
  if fs.pathExists filepath then
    if (["main.py", "requirements.txt", ".env", "config"].any
        (fun p => strContains (pyLower (basename filepath)) p)) then .medium
    else .low
  else .safe

def criticalCommands : List String :=
  ["rm -rf", "del /f", "format", "fdisk", "mkfs",
   "shutdown", "reboot", "halt", "poweroff",
   "dd if=", "chmod 777", "chown root", "sudo rm"]

def highRiskCommands : List String :=
  ["rm ", "del ", "rmdir", "move", "mv ",
   "chmod", "chown", "sudo", "su ",
   "kill", "pkill", "killall"]

def mediumRiskCommands : List String :=
  ["cp ", "copy", "wget", "curl", "git push",
   "npm install", "pip install", "apt install"]

/-- `_assess_command_risk`: three ordered substring tiers. -/
def assessCommandRisk (command : String) : RiskLevel :=
  let commandLower := pyLower command
  if criticalCommands.any (fun c => strContains commandLower c) then .critical
  else if highRiskCommands.any (fun c => strContains commandLower c) then .high
  else if mediumRiskCommands.any (fun c => strContains commandLower c) then .medium
  else .low

def riskyCommitPatterns : List String :=
  ["wip", "temp", "test", "debug", "hack", "fix later",
   "todo", "broken", "experimental"]

/-- `_assess_git_commit_risk`. -/
def assessGitCommitRisk (message : String) : RiskLevel :=
  if message = "" then .medium
  else if riskyCommitPatterns.any (fun p => strContains (pyLower message) p) then .medium
  else .low

/-- `_assess_git_push_risk`. -/
def assessGitPushRisk (remote branch : String) : RiskLevel :=
  if pyLower branch ∈ ["main", "master", "production", "prod"] then .high
  else if remote = "origin" ∧ branch ≠ "" ∧ branch ∉ ["main", "master"] then .medium
  else .medium

/-- `_assess_git_pull_risk`. -/
def assessGitPullRisk (_remote _branch : String) : RiskLevel := .low

/-- `_assess_git_branch_risk`. -/
def assessGitBranchRisk (action branchName : String) : RiskLevel :=
  if action = "list" then .safe
  else if action = "create" then .low
  else if action = "switch" then .low
  else if action = "delete" then
    if pyLower branchName ∈ ["main", "master", "production", "prod"] then .high
    else .medium
  else .low

/-- `_assess_code_generation_risk` (parameters read with
`kwargs.get`, so none are required). -/
def assessCodeGenerationRisk (params : List (String × String)) : RiskLevel :=
  let filepath := dictGetD params ("filepath") ("")
  let description := pyLower (dictGetD params ("description") (""))
  if filepath ≠ "" ∧
     (["main.py", "__init__.py", "setup.py", "config"].any
       (fun p => strContains (pyLower filepath) p)) then .medium
  else if (["system", "os.", "subprocess", "exec", "eval"].any
       (fun p => strContains description p)) then .medium
  else .low

/-- `_assess_refactor_risk`. -/
def assessRefactorRisk (params : List (String × String)) : RiskLevel :=
  let filepath := dictGetD params ("filepath") ("")
  let refactorType := dictGetD params ("refactor_type") ("")
  if (["main.py", "__init__.py", "setup.py"].any
      (fun p => strContains (pyLower filepath) p)) then .high
  else if refactorType = "auto" then .medium
  else .low

/-- `SafetyApprovalSystem.assess_risk`: dispatch on the `risk_rules`
table, defaulting unknown operations to `LOW`.  Rules whose Python
signature has a required keyword (`filepath`, `folderpath`, `command`)
are `none` when the parameter dict lacks it, modelling the `TypeError`
the `**params` call raises in that case. -/
def assessRisk (fs : FS) (op : String) (params : List (String × String)) : Option RiskLevel :=
  match op with
  | "delete_file" => (dictLookup params ("filepath")).map (assessFileDeletionRisk fs)
  | "delete_folder" => (dictLookup params ("folderpath")).map (assessFolderDeletionRisk fs)
  | "write_file" => (dictLookup params ("filepath")).map (assessFileWriteRisk fs)
  | "run_command" => (dictLookup params ("command")).map assessCommandRisk
  | "git_status" => some .safe
  | "git_diff" => some .safe
  | "git_log" => some .safe
  | "git_add" => some .low
  | "git_commit" => some (assessGitCommitRisk (dictGetD params ("message") ("")))
  | "git_push" =>
    some (assessGitPushRisk (dictGetD params ("remote") ("origin"))
      (dictGetD params ("branch") ("")))
  | "git_pull" =>
    some (assessGitPullRisk (dictGetD params ("remote") ("origin"))
      (dictGetD params ("branch") ("")))
  | "git_branch" =>
    some (assessGitBranchRisk (dictGetD params ("action") ("list"))
      (dictGetD params ("branch_name") ("")))
  | "python_lint" => some .safe
  | "analyze_complexity" => some .safe
  | "security_scan" => some .safe
  | "analyze_dependencies" => some .safe
  | "code_quality" => some .safe
  | "generate_code" => some (assessCodeGenerationRisk params)
  | "code_template" => some .safe
  | "refactor_code" => some (assessRefactorRisk params)
  | "code_snippet" => some .safe
  | "read_file" => some .safe
  | "list_files" => some .safe
  | "create_folder" => some .safe
  | "run_python" => some .low
  | "check_syntax" => some .safe
  | _ => some .low

/-- `SafetyApprovalSystem.requires_approval`: true iff the level is not
`SAFE`. -/
def requiresApproval (fs : FS) (op : String) (params : List (String × String)) :
    Option Bool :=
  (assessRisk fs op params).map (fun r => decide (r ≠ RiskLevel.safe))

/-- `SafetyApprovalSystem.request_approval`: `SAFE` is auto-approved
without consulting anyone; otherwise the approval collaborator (the
CLI / console prompt) decides. -/
def requestApproval (fs : FS) (ask : String → List (String × String) → Bool)
    (op : String) (params : List (String × String)) : Option Bool :=
  (assessRisk fs op params).map
    (fun r => if r = RiskLevel.safe then true else ask op params)

/-- Result of `_execute_tool_plan`: the reported string and whether the
tool function was actually called (the side-effect observation). -/
structure ExecOutcome where
  result : String
  invoked : Bool
deriving DecidableEq, Repr

/-- `CodingAgent._execute_tool_plan`: unknown tools are reported without
execution; non-`SAFE` operations go through the approval gate and a
denial short-circuits to a cancellation message with the tool never
invoked.  The `none` risk case models the caught `TypeError` of a rule
invoked without its required parameter (reported as a tool-execution
failure by the `except` clause). -/
def executeToolPlan (tools : List String)
    (run : String → List (String × String) → String) (fs : FS)
    (ask : String → List (String × String) → Bool)
    (tool : String) (params : List (String × String)) : ExecOutcome :=
  if !(tools.contains tool) then
    ⟨("❌ Unknown tool: ") ++ tool, false⟩
  else
    match requiresApproval fs tool params with
    | none => ⟨("❌ Tool execution failed: missing required parameter"), false⟩
    | some needsApproval =>
      if needsApproval then
        match requestApproval fs ask tool params with
        | none => ⟨("❌ Tool execution failed: missing required parameter"), false⟩
        | some approved =>
          if approved then ⟨run tool params, true⟩
          else ⟨("❌ Operation cancelled by user: ") ++ tool, false⟩
      else ⟨run tool params, true⟩

/-! ## ReAct loop (`src/agent/react_agent.py`) -/

/-- The fields of `ConversationTurn` that the loop control reads or
writes, plus a ghost counter `iterationsRun` recording how many loop
bodies ran (the successor of the Python `iteration` variable; inert
fields such as the timestamp are omitted). -/
structure TurnState where
  agentReasoning : String
  actionsTaken : List String
  results : List String
  success : Bool
  iterationsRun : Nat
deriving DecidableEq, Repr

/-- The fresh `ConversationTurn` built at the start of
`execute_task`. -/
def initialTurn : TurnState :=
  { agentReasoning := "", actionsTaken := [], results := [],
    success := false, iterationsRun := 0 }

/-- The `for iteration in range(self.max_iterations)` loop of
`execute_task`, iterating over the remaining index list.  `reason`
models `self._reason` (the LLM collaborator, a function of the iteration
and the turn so far); `act` models `self._act` returning an
`(action, result)` pair.  A `TASK_COMPLETE` marker in the reasoning
breaks out with `success = True` before acting; an `ERROR` result other
than on the last iteration `continue`s; a `Successfully` result breaks
with `success = True`; anything else falls through to the next
iteration. -/
def runIterations (reason : Nat → TurnState → String)
    (act : String → String × String) (maxIterations : Nat) :
    List Nat → TurnState → TurnState
  | [], turn => turn
  | i :: restIdx, turn =>
    let reasoning := reason i turn
    let turn1 :=
      { turn with
        agentReasoning :=
          turn.agentReasoning ++ ("Iteration ") ++ toString (i + 1) ++ (": ")
            ++ reasoning ++ ("\n"),
        iterationsRun := turn.iterationsRun + 1 }
    if strContains reasoning ("TASK_COMPLETE") then
      { turn1 with success := true }
    else
      let ar := act reasoning
      let turn2 :=
        { turn1 with
          actionsTaken := turn1.actionsTaken ++ [ar.1],
          results := turn1.results ++ [ar.2] }
      if strContains ar.2 ("ERROR") && decide (i < maxIterations - 1) then
        runIterations reason act maxIterations restIdx turn2
      else if strContains ar.2 ("Successfully") then
        { turn2 with success := true }
      else
        runIterations reason act maxIterations restIdx turn2

/-- `ReActAgent.execute_task`'s loop with the constructor's
`max_iterations = 5`. -/
def executeTask (reason : Nat → TurnState → String)
    (act : String → String × String) : TurnState :=
  runIterations reason act 5 (List.range 5) initialTurn

/-! ## Shared concrete collaborators for witnesses -/

/-- A file-system oracle on which every path exists and every directory
holds 100 entries. -/
def fsAllExist : FS := ⟨fun _ => true, fun _ => none, fun _ => some 100⟩

/-- A tool runner that reports the tool name. -/
def runEcho : String → List (String × String) → String := fun t _ => t

/-- An approval collaborator that always denies. -/
def askNever : String → List (String × String) → Bool := fun _ _ => false

/-- An LLM collaborator that always reports completion. -/
def reasonDone : Nat → TurnState → String := fun _ _ => "TASK_COMPLETE: done"

/-- An action collaborator that never finds an action. -/
def actNoop : String → String × String :=
  fun _ => ("no_action", "No clear action found in reasoning")

/-! ## General lemmas about the embedding -/

theorem mk_data (s : String) : String.mk s.data = s := rfl

theorem data_append (s r : String) : (s ++ r).data = s.data ++ r.data := by
  cases s; cases r; rfl

theorem wordChar_not_space (c : Char) (h : isWordChar c = true) : pyIsSpace c = false := by
  cases hs : pyIsSpace c with
  | false => rfl
  | true =>
    exfalso
    unfold pyIsSpace at hs
    unfold isWordChar at h
    rcases Bool.or_eq_true_iff.mp hs with h1 | h1
    · rcases Bool.or_eq_true_iff.mp h1 with h2 | h2
      · rcases Bool.or_eq_true_iff.mp h2 with h3 | h3
        · rcases Bool.or_eq_true_iff.mp h3 with h4 | h4
          · rcases Bool.or_eq_true_iff.mp h4 with h5 | h5
            · rw [eq_of_beq h5] at h; exact absurd h (by decide)
            · rw [eq_of_beq h5] at h; exact absurd h (by decide)
          · rw [eq_of_beq h4] at h; exact absurd h (by decide)
        · rw [eq_of_beq h3] at h; exact absurd h (by decide)
      · rw [eq_of_beq h2] at h; exact absurd h (by decide)
    · rw [eq_of_beq h1] at h; exact absurd h (by decide)

theorem dropWhile_eq_self_of_head (p : Char → Bool) (l : List Char)
    (h : ∀ c, l.head? = some c → p c = false) : l.dropWhile p = l := by
  cases l with
  | nil => rfl
  | cons a t => rw [List.dropWhile_cons, h a rfl]; simp

theorem stripList_eq_self (l : List Char)
    (h1 : ∀ c, l.head? = some c → pyIsSpace c = false)
    (h2 : ∀ c, l.reverse.head? = some c → pyIsSpace c = false) :
    stripList l = l := by
  unfold stripList
  rw [dropWhile_eq_self_of_head _ _ h1, dropWhile_eq_self_of_head _ _ h2,
    List.reverse_reverse]

theorem dictLookup_dictSet (m : List (String × String)) (k v k' : String) :
    dictLookup (dictSet m k v) k' = if k' = k then some v else dictLookup m k' := by
  induction m with
  | nil =>
    simp only [dictSet, dictLookup]
    by_cases h : k = k'
    · rw [if_pos h, if_pos h.symm]
    · rw [if_neg h, if_neg (fun hh : k' = k => h hh.symm)]
  | cons p rest ih =>
    obtain ⟨k0, v0⟩ := p
    simp only [dictSet]
    by_cases h0 : k0 = k
    · subst h0
      rw [if_pos rfl]
      simp only [dictLookup]
      by_cases h : k0 = k'
      · rw [if_pos h, if_pos h.symm]
      · rw [if_neg h, if_neg (fun hh : k' = k0 => h hh.symm), if_neg h]
    · rw [if_neg h0]
      simp only [dictLookup]
      by_cases h : k0 = k'
      · subst h
        rw [if_pos rfl, if_neg (fun hh : k0 = k => h0 hh), if_pos rfl]
      · rw [if_neg h, if_neg h, ih]

/-- The value of the last decoded entry whose key normalizes to `c`
(what the normalization pass actually retains on a collision). -/
def lastValueFor : List (String × String) → String → Option String
  | [], _ => none
  | p :: rest, c =>
    match lastValueFor rest c with
    | some v => some v
    | none => if nameMapping p.1 = c then some p.2 else none

theorem dictLookup_foldl_normalize (m : List (String × String)) (c : String) :
    ∀ acc : List (String × String),
      dictLookup (m.foldl (fun a p => dictSet a (nameMapping p.1) p.2) acc) c =
        match lastValueFor m c with
        | some v => some v
        | none => dictLookup acc c := by
  induction m with
  | nil => intro acc; rfl
  | cons p rest ih =>
    intro acc
    rw [List.foldl_cons, ih]
    cases hl : lastValueFor rest c with
    | some v => simp [lastValueFor, hl]
    | none =>
      simp only [lastValueFor, hl]
      rw [dictLookup_dictSet]
      by_cases h : nameMapping p.1 = c
      · rw [if_pos h.symm, if_pos h]
      · rw [if_neg (fun hh => h hh.symm), if_neg h]

/-! The heuristics of `_infer_tool_from_natural_language` only ever
build tool-execution plans. -/

theorem fileCreationInfer_not_error (r u ul : String) (p : Plan)
    (h : fileCreationInfer r u ul = some p) : planIsError p = false := by
  unfold fileCreationInfer at h
  split at h
  · rcases Option.map_eq_some'.mp h with ⟨fn, _, hp⟩
    rw [← hp]; rfl
  · exact absurd h (by simp)

theorem folderCreationInfer_not_error (r u ul : String) (p : Plan)
    (h : folderCreationInfer r u ul = some p) : planIsError p = false := by
  unfold folderCreationInfer at h
  split at h
  · rw [← Option.some.inj h]; rfl
  · exact absurd h (by simp)

theorem fileReadingInfer_not_error (r u ul : String) (p : Plan)
    (h : fileReadingInfer r u ul = some p) : planIsError p = false := by
  unfold fileReadingInfer at h
  split at h
  · rcases Option.map_eq_some'.mp h with ⟨fn, _, hp⟩
    rw [← hp]; rfl
  · exact absurd h (by simp)

theorem pythonRunInfer_not_error (r u ul : String) (p : Plan)
    (h : pythonRunInfer r u ul = some p) : planIsError p = false := by
  unfold pythonRunInfer at h
  split at h
  · rcases Option.map_eq_some'.mp h with ⟨fn, _, hp⟩
    rw [← hp]; rfl
  · exact absurd h (by simp)

theorem listFilesInfer_not_error (r u ul : String) (p : Plan)
    (h : listFilesInfer r u ul = some p) : planIsError p = false := by
  unfold listFilesInfer at h
  split at h
  · rw [← Option.some.inj h]; rfl
  · exact absurd h (by simp)

theorem inferTool_not_error (r u : String) (p : Plan)
    (h : inferTool r u = some p) : planIsError p = false := by
  simp only [inferTool] at h
  split at h
  · next p1 hfc =>
    exact (Option.some.inj h) ▸ fileCreationInfer_not_error _ _ _ p1 hfc
  · split at h
    · next p1 hfc =>
      exact (Option.some.inj h) ▸ folderCreationInfer_not_error _ _ _ p1 hfc
    · split at h
      · next p1 hfc =>
        exact (Option.some.inj h) ▸ fileReadingInfer_not_error _ _ _ p1 hfc
      · split at h
        · next p1 hfc =>
          exact (Option.some.inj h) ▸ pythonRunInfer_not_error _ _ _ p1 hfc
        · exact listFilesInfer_not_error _ _ _ _ h

/-! ## Claim theorems -/

/-- C10: the parser never produces the error-plan variant — every plan
returned by `_parse_llm_response` is a tool execution or a conversation,
so the error branch of `_act` is unreachable from the parser's output. -/
theorem parse_never_error_plan (tools : List String) (s u : String) :
    planIsError (parseLLMResponse tools s u) = false := by
  simp only [parseLLMResponse]
  split
  · rfl
  · split
    · rfl
    · split
      · next p hp => exact inferTool_not_error _ _ _ hp
      · rfl

/-- C2 (amended): for every input the parser returns exactly one of the
three plan variants, and when none of the three strategies matches it
falls back to a conversation plan carrying the whitespace-stripped raw
text (the source strips the response before parsing, so the carried text
is `response.strip()`, not the raw response). -/
theorem parse_total_fallback_amended (tools : List String) (s u : String)
    (h1 : strategy1 (pyStrip s).data = none)
    (h2 : strategy2 tools (pyStrip s).data = none)
    (h3 : inferTool (pyStrip s) u = none) :
    ((∃ tn prm raw, parseLLMResponse tools s u = Plan.toolExecution tn prm raw) ∨
     (∃ m, parseLLMResponse tools s u = Plan.conversation m) ∨
     (∃ m, parseLLMResponse tools s u = Plan.error m)) ∧
    parseLLMResponse tools s u = Plan.conversation (pyStrip s) := by
  have hconv : parseLLMResponse tools s u = Plan.conversation (pyStrip s) := by
    simp only [parseLLMResponse]
    rw [h1, h2, h3]
  exact ⟨Or.inr (Or.inl ⟨pyStrip s, hconv⟩), hconv⟩

/-- Witness for C2's amended theorem at a concrete input on which no
strategy matches. -/
theorem parse_total_fallback_amended_witness :
    ((∃ tn prm raw,
        parseLLMResponse ([]) ("  Hello!  ") ("") = Plan.toolExecution tn prm raw) ∨
     (∃ m, parseLLMResponse ([]) ("  Hello!  ") ("") = Plan.conversation m) ∨
     (∃ m, parseLLMResponse ([]) ("  Hello!  ") ("") = Plan.error m)) ∧
    parseLLMResponse ([]) ("  Hello!  ") ("") = Plan.conversation (pyStrip ("  Hello!  ")) :=
  parse_total_fallback_amended [] ("  Hello!  ") ("") (by decide) (by decide) (by decide)

/-- C2 counterexample: the fallback conversation plan carries the
stripped text, not the raw text, so the claim's "carrying the raw text"
fails on an input with surrounding whitespace. -/
theorem parse_fallback_strips_raw_cex :
    parseLLMResponse ([]) ("  Hello!  ") ("") = Plan.conversation ("Hello!") ∧
    parseLLMResponse ([]) ("  Hello!  ") ("") ≠ Plan.conversation ("  Hello!  ") :=
  ⟨by decide, by decide⟩

/-- C4: a comma inside a properly quoted value never splits the
parameter list — decoding `filepath="a, b.py", content="x"` yields
exactly the two keys `filepath` and `content` with the quoted values
intact. -/
theorem decode_quoted_comma_not_split :
    parseToolParams ("filepath=\"a, b.py\", content=\"x\"") =
      [(("filepath"), ("a, b.py")), (("content"), ("x"))] := by decide

/-- C5 counterexample: normalization lets a synonym shadow a canonical
key that is already present — on `filepath="a", file_path="b"` the
decoded map holds both keys, and the normalized output binds `filepath`
to the synonym's value `"b"`, not the canonical `"a"`. -/
theorem normalize_synonym_shadows_cex :
    normalizeParameterNames ([(("filepath"), ("a")), (("file_path"), ("b"))]) =
      [(("filepath"), ("b"))] ∧
    parseToolParams ("filepath=\"a\", file_path=\"b\"") = [(("filepath"), ("b"))] ∧
    ([(("filepath"), ("b"))] : List (String × String)) ≠ [(("filepath"), ("a"))] :=
  ⟨by decide, by decide, by decide⟩

/-- C5 (amended): key normalization is applied after all extraction
passes, but on a collision the last decoded entry wins — each canonical
name is bound to the value of the last entry whose key normalizes to it,
so a synonym appearing after the canonical key shadows it. -/
theorem normalize_last_write_wins_amended (m : List (String × String)) (c : String)
    (s : String) (hs : pyStrip s ≠ ("")) :
    dictLookup (normalizeParameterNames m) c = lastValueFor m c ∧
    parseToolParams s = normalizeParameterNames (parseToolParamsRaw s) := by
  constructor
  · unfold normalizeParameterNames
    rw [dictLookup_foldl_normalize]
    cases lastValueFor m c <;> rfl
  · unfold parseToolParams
    have hne : (stripList s.data).isEmpty = false := by
      cases he : (stripList s.data).isEmpty
      · rfl
      · exfalso
        apply hs
        have : stripList s.data = [] := by
          cases hl : stripList s.data
          · rfl
          · rw [hl] at he; exact absurd he (by simp [List.isEmpty])
        unfold pyStrip
        rw [this]
    rw [hne]
    simp

/-- Witness for C5's amended theorem at a concrete map and argument
string. -/
theorem normalize_last_write_wins_amended_witness :
    dictLookup (normalizeParameterNames ([(("filepath"), ("a")), (("file_path"), ("b"))]))
        ("filepath") =
      lastValueFor ([(("filepath"), ("a")), (("file_path"), ("b"))]) ("filepath") ∧
    parseToolParams ("x=\"1\"") = normalizeParameterNames (parseToolParamsRaw ("x=\"1\"")) :=
  normalize_last_write_wins_amended
    ([(("filepath"), ("a")), (("file_path"), ("b"))]) ("filepath") ("x=\"1\"") (by decide)

/-- C1 counterexample: the whole-match strategy performs no registry
check — on raw text `sometool(x="1")` with only `read_file` registered,
the parser returns a tool-execution plan naming the unregistered
`sometool`, which the executor then surfaces as a runtime unknown-tool
message. -/
theorem wholeMatch_unknown_tool_cex :
    parseLLMResponse (["read_file"]) ("sometool(x=\"1\")") ("") =
      Plan.toolExecution ("sometool") ([(("x"), ("1"))]) ("sometool(x=\"1\")") ∧
    (["read_file"] : List String).contains ("sometool") = false ∧
    executeToolPlan (["read_file"]) runEcho fsAllExist askNever ("sometool")
        ([(("x"), ("1"))]) = ⟨("❌ Unknown tool: sometool"), false⟩ :=
  ⟨by decide, by decide, by decide⟩

/-- C1 (amended): only the embedded-scan strategy filters candidate
names by the registry; the whole-match strategy returns a tool-execution
plan without any registry check, and a plan naming an unregistered tool
is surfaced by `_execute_tool_plan` as a runtime unknown-tool message
(without invoking any tool) rather than being treated as a parse
failure. -/
theorem parse_registry_check_amended :
    (∀ (tools : List String) (s u : String) (name args : List Char),
       strategy1 (pyStrip s).data = some (name, args) →
       parseLLMResponse tools s u =
         Plan.toolExecution (String.mk name) (parseToolParams (String.mk args))
           (pyStrip s)) ∧
    (∀ (tools : List String) (l : List Char) (name args : String),
       strategy2 tools l = some (name, args) → tools.contains name = true) ∧
    (∀ (tools : List String) (run : String → List (String × String) → String)
       (fs : FS) (ask : String → List (String × String) → Bool)
       (tool : String) (params : List (String × String)),
       tools.contains tool = false →
       executeToolPlan tools run fs ask tool params =
         ⟨("❌ Unknown tool: ") ++ tool, false⟩) := by
  refine ⟨?_, ?_, ?_⟩
  · intro tools s u name args h
    simp only [parseLLMResponse]
    rw [h]
  · intro tools l name args h
    unfold strategy2 at h
    have := List.find?_some h
    simpa using this
  · intro tools run fs ask tool params h
    unfold executeToolPlan
    rw [h]
    rfl

/-- Witness for C1's amended theorem: each conjunct applied at a
concrete input. -/
theorem parse_registry_check_amended_witness :
    (parseLLMResponse (["write_file"]) ("sometool(x=\"1\")") ("") =
      Plan.toolExecution (String.mk (("sometool").data))
        (parseToolParams (String.mk (("x=\"1\"").data)))
        (pyStrip ("sometool(x=\"1\")"))) ∧
    ((["write_file"] : List String).contains ("write_file") = true) ∧
    (executeToolPlan (["write_file"]) runEcho fsAllExist askNever ("nope") ([]) =
      ⟨("❌ Unknown tool: ") ++ ("nope"), false⟩) :=
  ⟨parse_registry_check_amended.1 (["write_file"]) ("sometool(x=\"1\")") ("")
      (("sometool").data) (("x=\"1\"").data) (by decide),
   parse_registry_check_amended.2.1 (["write_file"]) (("write_file(a=\"b\")").data)
      ("write_file") ("a=\"b\"") (by decide),
   parse_registry_check_amended.2.2 (["write_file"]) runEcho fsAllExist askNever
      ("nope") ([]) (by decide)⟩

/-- C6 counterexample: for the user input `create a folder report.txt`
the inference synthesizes a `write_file` call (the file-creation
heuristic fires first on the `.txt` extension), not the `create_folder`
call the claim promises. -/
theorem infer_folder_vs_file_order_cex :
    inferTool ("Sure.") ("create a folder report.txt") =
      some (Plan.toolExecution ("write_file")
        ([(("filepath"), ("report.txt")),
          (("content"),
           ("# report.txt - Created by CodingAgent\nprint(\"File created successfully!\")"))])
        ("Sure.")) ∧
    (∀ prm raw, inferTool ("Sure.") ("create a folder report.txt") ≠
        some (Plan.toolExecution ("create_folder") prm raw)) := by
  have hres : inferTool ("Sure.") ("create a folder report.txt") =
      some (Plan.toolExecution ("write_file")
        ([(("filepath"), ("report.txt")),
          (("content"),
           ("# report.txt - Created by CodingAgent\nprint(\"File created successfully!\")"))])
        ("Sure.")) := by decide
  refine ⟨hres, ?_⟩
  intro prm raw h
  rw [hres] at h
  have hn := congrArg Plan.toolNameOf (Option.some.inj h)
  simp only [Plan.toolNameOf, Option.some.injEq] at hn
  exact absurd hn (by decide)

/-- C6 (amended): the generic file-creation heuristic is checked before
the folder-creation heuristic — whatever the file-creation heuristic
returns is the inference result, so `create a folder report.txt`
(mentioning a recognized extension) synthesizes `write_file`, and
folder creation fires only when file creation does not match, as on
`create a folder reports`. -/
theorem infer_file_creation_priority_amended (r u : String) (p : Plan)
    (h : fileCreationInfer r u (pyLower u) = some p) :
    inferTool r u = some p ∧
    inferTool ("ok") ("create a folder reports") =
      some (Plan.toolExecution ("create_folder")
        ([(("folderpath"), ("reports"))]) ("ok")) := by
  refine ⟨?_, by decide⟩
  simp only [inferTool]
  rw [h]

/-- Witness for C6's amended theorem at a concrete input on which the
file-creation heuristic fires. -/
theorem infer_file_creation_priority_amended_witness :
    inferTool ("ok") ("create hello.py") =
      some (Plan.toolExecution ("write_file")
        ([(("filepath"), ("hello.py")),
          (("content"), ("print(\"Hello, World!\")"))]) ("ok")) ∧
    inferTool ("ok") ("create a folder reports") =
      some (Plan.toolExecution ("create_folder")
        ([(("folderpath"), ("reports"))]) ("ok")) :=
  infer_file_creation_priority_amended ("ok") ("create hello.py")
    (Plan.toolExecution ("write_file")
      ([(("filepath"), ("hello.py")),
        (("content"), ("print(\"Hello, World!\")"))]) ("ok"))
    (by decide)

/-- C7: classifying a `delete_folder` operation whose folder path (or
directory name) contains a version-control metadata directory such as
`.git` yields `High`, for every file-system state — in particular
regardless of how many entries the directory contains, since the
critical-directory check precedes the entry count. -/
theorem delete_folder_git_high (fs : FS) (params : List (String × String))
    (path : String)
    (hget : dictLookup params ("folderpath") = some path)
    (hex : fs.pathExists path = true)
    (hgit : strContains (pyLower (basename path)) (".git") = true ∨
            strContains (pyLower path) (".git") = true) :
    assessRisk fs ("delete_folder") params = some RiskLevel.high := by
  have hdisp : assessRisk fs ("delete_folder") params =
      (dictLookup params ("folderpath")).map (assessFolderDeletionRisk fs) := rfl
  rw [hdisp, hget, Option.map_some']
  have hrisk : assessFolderDeletionRisk fs path = RiskLevel.high := by
    unfold assessFolderDeletionRisk
    rw [hex]
    have hany : criticalDirs.any
        (fun c => strContains (pyLower (basename path)) c ||
                  strContains (pyLower path) c) = true := by
      apply List.any_eq_true.mpr
      refine ⟨(".git"), by decide, ?_⟩
      rcases hgit with h | h
      · simp [h]
      · simp [h]
    simp [hany]
  rw [hrisk]

/-- Witness for C7 at a concrete oracle and parameter map (directory
reported to hold 100 entries). -/
theorem delete_folder_git_high_witness :
    assessRisk fsAllExist ("delete_folder") ([(("folderpath"), ("project/.git"))]) =
      some RiskLevel.high :=
  delete_folder_git_high fsAllExist ([(("folderpath"), ("project/.git"))])
    ("project/.git") (by decide) rfl (Or.inr (by decide))

/-- C8: when the approval collaborator denies a High or Critical
operation, the tool function is never invoked and the reported result is
the explicit cancellation message. -/
theorem denied_approval_no_invocation (fs : FS)
    (run : String → List (String × String) → String)
    (ask : String → List (String × String) → Bool)
    (tools : List String) (tool : String) (params : List (String × String))
    (r : RiskLevel)
    (hmem : tools.contains tool = true)
    (hrisk : assessRisk fs tool params = some r)
    (hhc : r = RiskLevel.high ∨ r = RiskLevel.critical)
    (hdeny : ask tool params = false) :
    executeToolPlan tools run fs ask tool params =
      ⟨("❌ Operation cancelled by user: ") ++ tool, false⟩ := by
  have hns : r ≠ RiskLevel.safe := by
    rcases hhc with h | h <;> subst h <;> decide
  unfold executeToolPlan
  rw [hmem]
  simp only [Bool.not_true, Bool.false_eq_true, if_false]
  unfold requiresApproval requestApproval
  rw [hrisk, Option.map_some', Option.map_some', decide_eq_true hns,
    if_neg hns, hdeny]
  rfl

/-- Witness for C8: a denied `delete_folder` on a `.git` directory is
cancelled without invoking the tool. -/
theorem denied_approval_no_invocation_witness :
    executeToolPlan (["delete_folder"]) runEcho fsAllExist askNever
        ("delete_folder") ([(("folderpath"), ("project/.git"))]) =
      ⟨("❌ Operation cancelled by user: ") ++ ("delete_folder"), false⟩ :=
  denied_approval_no_invocation fsAllExist runEcho askNever (["delete_folder"])
    ("delete_folder") ([(("folderpath"), ("project/.git"))]) RiskLevel.high
    (by decide) (by decide) (Or.inl rfl) rfl

/-- Each loop entry increments the ghost counter once, so the counter of
the final state is bounded by the number of remaining indices. -/
theorem runIterations_bound (reason : Nat → TurnState → String)
    (act : String → String × String) (m : Nat) :
    ∀ (idxs : List Nat) (turn : TurnState),
      (runIterations reason act m idxs turn).iterationsRun ≤
        turn.iterationsRun + idxs.length := by
  intro idxs
  induction idxs with
  | nil => intro turn; simp [runIterations]
  | cons i rest ih =>
    intro turn
    simp only [runIterations, List.length_cons]
    split
    · simp
    · split
      · exact le_trans (ih _) (by simp; omega)
      · split
        · simp
        · exact le_trans (ih _) (by simp; omega)

/-- C9: the orchestration loop runs at most `max_iterations = 5`
iterations, and whenever the reasoning text of an iteration contains the
`TASK_COMPLETE` marker the loop stops after that iteration — regardless
of the remaining index budget — marking the turn successful, with no
action taken in that iteration. -/
theorem react_loop_bound_and_task_complete (reason : Nat → TurnState → String)
    (act : String → String × String) (i : Nat) (idxs : List Nat)
    (turn : TurnState)
    (h : strContains (reason i turn) ("TASK_COMPLETE") = true) :
    (executeTask reason act).iterationsRun ≤ 5 ∧
    runIterations reason act 5 (i :: idxs) turn =
      { turn with
        agentReasoning :=
          turn.agentReasoning ++ ("Iteration ") ++ toString (i + 1) ++ (": ")
            ++ reason i turn ++ ("\n"),
        iterationsRun := turn.iterationsRun + 1,
        success := true } := by
  constructor
  · have hb := runIterations_bound reason act 5 (List.range 5) initialTurn
    simpa [executeTask, initialTurn] using hb
  · simp only [runIterations]
    rw [h]
    rfl

/-- Witness for C9: with an LLM collaborator that immediately reports
`TASK_COMPLETE: done`, the first iteration stops the loop
successfully. -/
theorem react_loop_bound_and_task_complete_witness :
    (executeTask reasonDone actNoop).iterationsRun ≤ 5 ∧
    runIterations reasonDone actNoop 5 (0 :: [1, 2, 3, 4]) initialTurn =
      { initialTurn with
        agentReasoning :=
          initialTurn.agentReasoning ++ ("Iteration ") ++ toString (0 + 1) ++ (": ")
            ++ reasonDone 0 initialTurn ++ ("\n"),
        iterationsRun := initialTurn.iterationsRun + 1,
        success := true } :=
  react_loop_bound_and_task_complete reasonDone actNoop 0 ([1, 2, 3, 4])
    initialTurn (by decide)

/-- C3: if the input is exactly `tool_name(key="value")` with
`tool_name` a registered tool (a nonempty word-character name), the
parser returns a tool-execution plan for `tool_name` whose parameter map
is exactly `{key: "value"}`. -/
theorem parse_exact_tool_call (tools : List String) (t u : String)
    (hmem : tools.contains t = true)
    (hne : t.data ≠ [])
    (hword : ∀ c ∈ t.data, isWordChar c = true) :
    parseLLMResponse tools (t ++ ("(key=\"value\")")) u =
      Plan.toolExecution t ([(("key"), ("value"))]) (t ++ ("(key=\"value\")")) := by
  obtain ⟨c, ct, hct⟩ : ∃ c ct, t.data = c :: ct := by
    cases hd : t.data with
    | nil => exact absurd hd hne
    | cons a l => exact ⟨a, l, rfl⟩
  have hwc : isWordChar c = true := hword c (by rw [hct]; exact List.mem_cons_self c ct)
  have hwct : ∀ x ∈ ct, isWordChar x = true :=
    fun x hx => hword x (by rw [hct]; exact List.mem_cons_of_mem c hx)
  have hL : (t ++ ("(key=\"value\")")).data =
      c :: (ct ++ (("(key=\"value\")")).data) := by
    rw [data_append, hct, List.cons_append]
  have hlast : (c :: (ct ++ (("(key=\"value\")")).data)).getLast? = some ')' := by
    rw [← List.cons_append, List.getLast?_append_of_ne_nil _ (by decide)]
    decide
  have hstrip : stripList (c :: (ct ++ (("(key=\"value\")")).data)) =
      c :: (ct ++ (("(key=\"value\")")).data) := by
    apply stripList_eq_self
    · intro d hd
      have hcd : c = d := Option.some.inj hd
      rw [← hcd]
      exact wordChar_not_space c hwc
    · intro d hd
      rw [List.head?_reverse, hlast] at hd
      rw [← Option.some.inj hd]
      decide
  have htake2 : (ct ++ (("(key=\"value\")")).data).takeWhile isWordChar = ct := by
    rw [List.takeWhile_append_of_pos hwct,
      show (("(key=\"value\")")).data.takeWhile isWordChar = [] from by decide,
      List.append_nil]
  have hdrop2 : (ct ++ (("(key=\"value\")")).data).dropWhile isWordChar =
      (("(key=\"value\")")).data := by
    rw [List.dropWhile_append_of_pos hwct]
    decide
  have ht3 : (c :: (ct ++ (("(key=\"value\")")).data)).takeWhile isWordChar =
      c :: ct := by
    rw [List.takeWhile_cons, hwc]
    simp [htake2]
  have hd3 : (c :: (ct ++ (("(key=\"value\")")).data)).dropWhile isWordChar =
      (("(key=\"value\")")).data := by
    rw [List.dropWhile_cons, hwc]
    simp [hdrop2]
  have hftc : findToolCall (c :: (ct ++ (("(key=\"value\")")).data)) =
      some (c :: ct, (("key=\"value\")")).data) := by
    simp only [findToolCall]
    rw [ht3, hd3]
    rfl
  have hstrat : strategy1 (c :: (ct ++ (("(key=\"value\")")).data)) =
      some (c :: ct, (("key=\"value\"")).data) := by
    unfold strategy1
    rw [if_pos hlast, hftc, Option.map_some']
    rfl
  have hps : pyStrip (t ++ ("(key=\"value\")")) = t ++ ("(key=\"value\")") := by
    unfold pyStrip
    rw [hL, hstrip, ← List.cons_append, ← hct, ← data_append]
  have hpp : parseToolParams (String.mk ((("key=\"value\"")).data)) =
      [(("key"), ("value"))] := by decide
  simp only [parseLLMResponse]
  rw [hps, hL, hstrat]
  show Plan.toolExecution (String.mk (c :: ct))
      (parseToolParams (String.mk ((("key=\"value\"")).data)))
      (t ++ ("(key=\"value\")")) =
    Plan.toolExecution t ([(("key"), ("value"))]) (t ++ ("(key=\"value\")"))
  rw [hpp, ← hct]

/-- Witness for C3 with the registered tool `read_file`. -/
theorem parse_exact_tool_call_witness :
    parseLLMResponse (["read_file"]) (("read_file") ++ ("(key=\"value\")")) ("") =
      Plan.toolExecution ("read_file") ([(("key"), ("value"))])
        (("read_file") ++ ("(key=\"value\")")) :=
  parse_exact_tool_call (["read_file"]) ("read_file") ("") (by decide) (by decide)
    (by decide)

end CodeBuddy
